import Mathlib

/-!
Verification development for the orbits-pds repository.

The repository's original logic is the "Orbit Record Service": a set of
Express route handlers (`launchCustomServer` in `src/server.ts`) providing
create/get/list/update for `org.chaoticharmonylabs.orbit.record` records,
together with the admin-header guard (`src/auth.ts` `requireAdmin`), the
content-fingerprint helper (`createCid`), and the lexicon loaders
(`loadCustomLexicons`, `loadLexicons`).  A second, earlier server variant in
the same file (`registerOrbitHandlers`) serves mock data.

This file shallowly embeds those functions.  JavaScript objects are embedded
as insertion-ordered association lists of string keys, JS `||` defaulting and
truthiness are embedded explicitly, machine words in SHA-256 are `Nat` with
explicit reduction modulo 2^32, and the SQLite `record` table reached through
kysely is a list of rows with the query combinators used by the source
(`where uri =`, `executeTakeFirst`, `limit`, `updateTable ... set`, and
`insertInto ... values`) modelled as list operations.
-/

/-- JSON values as produced by `express.json()` body parsing and consumed by
`JSON.stringify`.  Objects are insertion-ordered association lists, matching
JavaScript object key order for the string keys used by this service. -/
inductive Json where
  | null : Json
  | bool (b : Bool) : Json
  | num (n : Int) : Json
  | str (s : String) : Json
  | arr (elements : List Json) : Json
  | obj (fields : List (String × Json)) : Json

/-- Hex digit (lowercase), for `\u00XX` escapes in JSON string quoting. -/
def hexDigit (n : Nat) : String :=
  if n < 10 then toString n
  else if n = 10 then "a" else if n = 11 then "b" else if n = 12 then "c"
  else if n = 13 then "d" else if n = 14 then "e" else "f"

/-- JSON escape of a single character, per `JSON.stringify` string quoting. -/
def jsEscapeChar (c : Char) : String :=
  if c = '"' then "\\\""
  else if c = '\\' then "\\\\"
  else if c = '\n' then "\\n"
  else if c = '\r' then "\\r"
  else if c = '\t' then "\\t"
  else if c.toNat = 8 then "\\b"
  else if c.toNat = 12 then "\\f"
  else if c.toNat < 32 then "\\u00" ++ hexDigit (c.toNat / 16) ++ hexDigit (c.toNat % 16)
  else String.singleton c

/-- Serialization (JSON.stringify) of a string value (quoted, escaped). -/
def jsQuote (s : String) : String :=
  "\"" ++ String.join (s.toList.map jsEscapeChar) ++ "\""

mutual

/-- Serialization `JSON.stringify(obj)` as used by `createCid` and the `record` table's
`json` column: no spacing, fields serialized in object insertion order. -/
def jsonStringify : Json → String
  | .null => "null"
  | .bool true => "true"
  | .bool false => "false"
  | .num n => toString n
  | .str s => jsQuote s
  | .arr l => "[" ++ jsonArrBody l ++ "]"
  | .obj f => "\x7b" ++ jsonObjBody f ++ "\x7d"

/-- Comma-separated serialization of array elements. -/
def jsonArrBody : List Json → String
  | [] => ""
  | [x] => jsonStringify x
  | x :: y :: rest => jsonStringify x ++ "," ++ jsonArrBody (y :: rest)

/-- Comma-separated serialization of object fields, insertion order. -/
def jsonObjBody : List (String × Json) → String
  | [] => ""
  | [(k, v)] => jsQuote k ++ ":" ++ jsonStringify v
  | (k, v) :: p :: rest => jsQuote k ++ ":" ++ jsonStringify v ++ "," ++ jsonObjBody (p :: rest)

end

/-- UTF-8 encoding of one character (codepoint), as `TextEncoder().encode`. -/
def utf8Char (c : Char) : List Nat :=
  let n := c.toNat
  if n < 0x80 then [n]
  else if n < 0x800 then
    [0xC0 ||| (n >>> 6), 0x80 ||| (n &&& 0x3F)]
  else if n < 0x10000 then
    [0xE0 ||| (n >>> 12), 0x80 ||| ((n >>> 6) &&& 0x3F), 0x80 ||| (n &&& 0x3F)]
  else
    [0xF0 ||| (n >>> 18), 0x80 ||| ((n >>> 12) &&& 0x3F),
     0x80 ||| ((n >>> 6) &&& 0x3F), 0x80 ||| (n &&& 0x3F)]

/-- Encoding `new TextEncoder().encode(s)`: UTF-8 bytes of a string. -/
def utf8Encode (s : String) : List Nat :=
  s.toList.foldr (fun c acc => utf8Char c ++ acc) []

/-! ### SHA-256 (`multiformats/hashes/sha2`), 32-bit words as `Nat` mod 2^32 -/

/-- Reduce to a 32-bit word. -/
def w32 (n : Nat) : Nat := n % 4294967296

/-- 32-bit right rotation. -/
def rotr32 (s x : Nat) : Nat := w32 ((x >>> s) ||| (x <<< (32 - s)))

/-- 32-bit bitwise complement. -/
def not32 (x : Nat) : Nat := 4294967295 ^^^ x

/-- SHA-256 `Ch` function. -/
def shaCh (e f g : Nat) : Nat := (e &&& f) ^^^ (not32 e &&& g)

/-- SHA-256 `Maj` function. -/
def shaMaj (a b c : Nat) : Nat := (a &&& b) ^^^ (a &&& c) ^^^ (b &&& c)

/-- SHA-256 big sigma 0. -/
def bsig0 (x : Nat) : Nat := rotr32 2 x ^^^ rotr32 13 x ^^^ rotr32 22 x

/-- SHA-256 big sigma 1. -/
def bsig1 (x : Nat) : Nat := rotr32 6 x ^^^ rotr32 11 x ^^^ rotr32 25 x

/-- SHA-256 small sigma 0. -/
def ssig0 (x : Nat) : Nat := rotr32 7 x ^^^ rotr32 18 x ^^^ (x >>> 3)

/-- SHA-256 small sigma 1. -/
def ssig1 (x : Nat) : Nat := rotr32 17 x ^^^ rotr32 19 x ^^^ (x >>> 10)

/-- SHA-256 round constants (decimal). -/
def shaK : List Nat :=
  [1116352408, 1899447441, 3049323471, 3921009573, 961987163, 1508970993,
   2453635748, 2870763221, 3624381080, 310598401, 607225278, 1426881987,
   1925078388, 2162078206, 2614888103, 3248222580, 3835390401, 4022224774,
   264347078, 604807628, 770255983, 1249150122, 1555081692, 1996064986,
   2554220882, 2821834349, 2952996808, 3210313671, 3336571891, 3584528711,
   113926993, 338241895, 666307205, 773529912, 1294757372, 1396182291,
   1695183700, 1986661051, 2177026350, 2456956037, 2730485921, 2820302411,
   3259730800, 3345764771, 3516065817, 3600352804, 4094571909, 275423344,
   430227734, 506948616, 659060556, 883997877, 958139571, 1322822218,
   1537002063, 1747873779, 1955562222, 2024104815, 2227730452, 2361852424,
   2428436474, 2756734187, 3204031479, 3329325298]

/-- SHA-256 initial hash state (decimal). -/
def shaH0 : List Nat :=
  [1779033703, 3144134277, 1013904242, 2773480762,
   1359893119, 2600822924, 528734635, 1541459225]

/-- Big-endian 8-byte encoding of the message bit length. -/
def be64 (n : Nat) : List Nat :=
  [(n >>> 56) % 256, (n >>> 48) % 256, (n >>> 40) % 256, (n >>> 32) % 256,
   (n >>> 24) % 256, (n >>> 16) % 256, (n >>> 8) % 256, n % 256]

/-- SHA-256 padding: append 0x80, zeros to 56 mod 64, then the bit length. -/
def sha256Pad (msg : List Nat) : List Nat :=
  let z := (55 + 64 - (msg.length % 64)) % 64
  msg ++ 0x80 :: List.replicate z 0 ++ be64 (8 * msg.length)

/-- Group bytes into big-endian 32-bit words. -/
def bytesToWords : List Nat → List Nat
  | a :: b :: c :: d :: rest => (((a * 256 + b) * 256 + c) * 256 + d) :: bytesToWords rest
  | _ => []

/-- Split a word list into 16-word blocks (padding makes the length a
multiple of 16, so the fallthrough only sees the empty tail). -/
def blocks16 : List Nat → List (List Nat)
  | w0 :: w1 :: w2 :: w3 :: w4 :: w5 :: w6 :: w7 ::
    w8 :: w9 :: w10 :: w11 :: w12 :: w13 :: w14 :: w15 :: rest =>
    [w0, w1, w2, w3, w4, w5, w6, w7, w8, w9, w10, w11, w12, w13, w14, w15] :: blocks16 rest
  | _ => []

/-- Extend the 16-word message schedule by `n` further words. -/
def extendW (w : List Nat) : Nat → List Nat
  | 0 => w
  | n + 1 =>
    let prev := extendW w n
    prev ++ [w32 (ssig1 (prev.getD (prev.length - 2) 0) + prev.getD (prev.length - 7) 0 +
                  ssig0 (prev.getD (prev.length - 15) 0) + prev.getD (prev.length - 16) 0)]

/-- One SHA-256 round on the 8-word working state. -/
def shaRound (st : List Nat) (kw : Nat × Nat) : List Nat :=
  match st with
  | [a, b, c, d, e, f, g, h] =>
    let t1 := w32 (h + bsig1 e + shaCh e f g + kw.1 + kw.2)
    let t2 := w32 (bsig0 a + shaMaj a b c)
    [w32 (t1 + t2), a, b, c, w32 (d + t1), e, f, g]
  | other => other

/-- SHA-256 compression of one 16-word block into the hash state. -/
def shaCompress (st : List Nat) (block : List Nat) : List Nat :=
  let w := extendW block 48
  let final := (shaK.zip w).foldl shaRound st
  (st.zip final).map (fun p => w32 (p.1 + p.2))

/-- Serialize the 8-word state to 32 big-endian bytes. -/
def wordsToBytes (ws : List Nat) : List Nat :=
  ws.foldr (fun w acc => (w >>> 24) % 256 :: (w >>> 16) % 256 :: (w >>> 8) % 256 :: w % 256 :: acc) []

/-- SHA-256 digest of a byte list. -/
def sha256 (msg : List Nat) : List Nat :=
  wordsToBytes ((blocks16 (bytesToWords (sha256Pad msg))).foldl shaCompress shaH0)

/-! ### Content identifier (`createCid` in `src/server.ts`)

`createCid(obj)` encodes `JSON.stringify(obj)` as UTF-8, takes the SHA-256
multihash (`sha256.digest`, multihash code 0x12, length 32) and wraps it as
`CID.create(1, raw.code, hash)` with the raw codec 0x55. -/

/-- Self-describing content identifier produced by `CID.create(1, raw.code, hash)`. -/
structure Cid where
  version : Nat
  codec : Nat
  hashCode : Nat
  hashLength : Nat
  digest : List Nat
deriving DecidableEq

/-- The helper `createCid` from `src/server.ts`: SHA-256 over the UTF-8 bytes of
`JSON.stringify(obj)`, wrapped as a CIDv1 with the raw codec. -/
def createCid (o : Json) : Cid :=
  { version := 1
    codec := 0x55
    hashCode := 0x12
    hashLength := 32
    digest := sha256 (utf8Encode (jsonStringify o)) }

/-! ### Admin guard (`requireAdmin` in `src/auth.ts`) -/

/-- A raw header value as typed in `requireAdmin`:
`Record<string, string | string[] | undefined>`. -/
inductive HVal where
  | str (s : String) : HVal
  | arr (l : List String) : HVal
  | undef : HVal

/-- Incoming headers in insertion order (later keys overwrite earlier ones
with the same lowercase name during normalization, as the `for..in` loop
assigns `h[k.toLowerCase()]` in order). -/
def Headers := List (String × HVal)

/-- Normalization `Array.isArray(v) ? v[0] || '' : v || ''`: the value stored in the
normalized header map. -/
def normVal : HVal → String
  | .str s => s
  | .arr l => l.headD ""
  | .undef => ""

/-- ASCII lowercasing of one character (HTTP header names are ASCII, on
which JavaScript `toLowerCase` agrees with this). -/
def lowerChar (c : Char) : Char :=
  if 65 ≤ c.toNat ∧ c.toNat ≤ 90 then Char.ofNat (c.toNat + 32) else c

/-- Lowercasing `k.toLowerCase()` for header names. -/
def lowerAscii (s : String) : String := String.mk (s.toList.map lowerChar)

/-- Lookup in the normalized (lowercased) header map: the last entry whose
lowercased name matches wins, mirroring repeated `h[k.toLowerCase()] = ...`
assignment in insertion order. -/
def normLookup (hdrs : Headers) (k : String) : Option String :=
  (hdrs.reverse.find? (fun p => lowerAscii p.1 == k)).map (fun p => normVal p.2)

/-- JavaScript `a || b` on header lookups: a missing key or an empty string
is falsy and falls through to the next alternative.  (When every alternative
is falsy, JS yields the last falsy value while this yields `none`; the two
are indistinguishable to `requireAdmin`, which only tests truthiness and
equality with the non-empty branch.) -/
def jsOrS (a b : Option String) : Option String :=
  match a with
  | some s => if s == "" then b else some s
  | none => b

/-- The ordered list of recognized admin header names in `requireAdmin`. -/
def adminHeaderNames : List String :=
  ["x-orbits-admin", "x-admin-secret", "x-admin-password",
   "admin", "admin_password", "admin-password"]

/-- The `candidate` chain in `requireAdmin`:
`h['x-orbits-admin'] || h['x-admin-secret'] || ... || h['admin-password']`. -/
def adminCandidate (hdrs : Headers) : Option String :=
  adminHeaderNames.foldr (fun k acc => jsOrS (normLookup hdrs k) acc) none

/-- An error thrown with `xrpcError(code, message)` (or a plain `Error`,
in which case `error` is `none`). -/
structure XErr where
  error : Option String
  message : String

/-- The error thrown by `requireAdmin`: `xrpcError('AuthMissing', 'Authentication Required')`. -/
def authMissingErr : XErr := { error := some "AuthMissing", message := "Authentication Required" }

/-- The guard `requireAdmin(headers, adminPassword)` from `src/auth.ts`: normalizes
header names to lowercase, takes the first truthy value of the recognized
names, and throws `AuthMissing` unless it equals the configured password
(`if (!candidate || candidate !== adminPassword) throw ...`). -/
def requireAdminE (hdrs : Headers) (adminPassword : String) : Except XErr Unit :=
  match adminCandidate hdrs with
  | none => .error authMissingErr
  | some c =>
    if c == "" then .error authMissingErr
    else if c == adminPassword then .ok ()
    else .error authMissingErr

/-- Whether `requireAdmin` succeeds (returns rather than throws). -/
def requireAdminOk (hdrs : Headers) (adminPassword : String) : Bool :=
  match requireAdminE hdrs adminPassword with
  | .ok _ => true
  | .error _ => false

/-! ### JavaScript object and truthiness helpers -/

/-- JavaScript truthiness of a JSON value (`NaN` does not arise for parsed
JSON bodies; empty objects and arrays are truthy). -/
def jsTruthy : Json → Bool
  | .null => false
  | .bool b => b
  | .num n => !(n == 0)
  | .str s => !(s == "")
  | .arr _ => true
  | .obj _ => true

/-- Truthiness of a possibly-missing object property (`undefined` is falsy). -/
def jsTruthyOpt : Option Json → Bool
  | none => false
  | some j => jsTruthy j

/-- JavaScript `v || d` on a possibly-missing property. -/
def jsOrJson (v : Option Json) (d : Json) : Json :=
  match v with
  | some j => if jsTruthy j then j else d
  | none => d

/-- JavaScript `v || d` for environment-variable strings
(`process.env.X || 'default'`: unset or empty falls back). -/
def jsOrString (v : Option String) (d : String) : String :=
  match v with
  | some s => if s == "" then d else s
  | none => d

/-- Property read `o[k]`: the first entry with the key (JS objects have
unique keys, so the first entry is the entry). -/
def objGet (l : List (String × Json)) (k : String) : Option Json :=
  (l.find? (fun p => p.1 == k)).map (fun p => p.2)

/-- Property write `o[k] = v` (also `Map.set`): updates the entry in place if
the key is present, otherwise appends it, preserving insertion order. -/
def jsSet (l : List (String × Json)) (k : String) (v : Json) : List (String × Json) :=
  if l.any (fun p => p.1 == k) then
    l.map (fun p => if p.1 == k then (k, v) else p)
  else
    l ++ [(k, v)]

/-- Object spread `{...base, ...upd}`: each field of `upd`, in order, is
written over `base` with JS property-write semantics. -/
def jsSpread (base upd : List (String × Json)) : List (String × Json) :=
  upd.foldl (fun acc p => jsSet acc p.1 p.2) base

/-- Rest destructuring `const { uri, ...updates } = body`: all fields except
the named one. -/
def removeKey (l : List (String × Json)) (k : String) : List (String × Json) :=
  l.filter (fun p => !(p.1 == k))

/-- The fields of a JSON object; spreading a non-object primitive contributes
no fields, matching `{...x}` in JavaScript. -/
def jsObjFields : Json → List (String × Json)
  | .obj f => f
  | _ => []

/-! ### Service configuration and database model -/

/-- The orbit record collection NSID. -/
def orbitNSID : String := "org.chaoticharmonylabs.orbit.record"

/-- Service configuration: the admin password and hostname read from the
environment in the `OrbitsPDS` constructor and handlers, plus the optional
lexicon resolver (`this.lexiconResolver`), abstracted as a validation
function since `Lexicons.assertValidRecord` belongs to the external
`@atproto/lexicon` dependency. -/
structure Cfg where
  adminPassword : String
  host : String
  resolver : Option (Json → Except String Unit)

/-- The constructor's `process.env.PDS_ADMIN_PASSWORD || 'admin123'` and the
handlers' `process.env.PDS_HOSTNAME || 'localhost'`. -/
def Cfg.ofEnv (pdsAdminPassword pdsHostname : Option String)
    (resolver : Option (Json → Except String Unit)) : Cfg :=
  { adminPassword := jsOrString pdsAdminPassword "admin123"
    host := jsOrString pdsHostname "localhost"
    resolver := resolver }

/-- A row of the `record` table (`DatabaseRecord` in `src/server.ts`).  The
source stores `json: JSON.stringify(record)` and re-parses it on read; since
`JSON.parse` inverts `JSON.stringify` on the records this service stores
(string keys, no `undefined` fields), the column is modelled by the parsed
value, with `jsonStringify` applied wherever the source serializes it. -/
structure DbRecord where
  uri : String
  cid : Cid
  did : String
  collection : String
  rkey : String
  json : Json
  indexedAt : String

/-- The `record` table. -/
abbrev Db := List DbRecord

/-- Result of a custom route handler: `res.json({uri, cid})` on success, or
`res.status(code).json({error: message})` on failure.  `code` keeps the
`.error` field of the thrown `xrpcError` (it is inspected by the catch
block's status dispatch, though only `message` is sent to the client). -/
inductive Resp where
  | ok (uri : String) (cid : Cid) : Resp
  | err (status : Nat) (code : Option String) (message : String) : Resp

/-- Whether the first character list starts the second. -/
def listHasPre : List Char → List Char → Bool
  | [], _ => true
  | _ :: _, [] => false
  | p :: ps, c :: cs => p == c && listHasPre ps cs

/-- Substring test `text.includes(pattern)`: whether the pattern occurs contiguously. -/
def listHasSub (pat : List Char) : List Char → Bool
  | [] => listHasPre pat []
  | c :: cs => listHasPre pat (c :: cs) || listHasSub pat cs

/-- The catch block's status dispatch:
`e.error==='InvalidRequest'?400: e.message.includes('Authentication')?403:500`. -/
def statusOfErr (e : XErr) : Nat :=
  if e.error == some "InvalidRequest" then 400
  else if listHasSub "Authentication".toList e.message.toList then 403
  else 500

/-- Response for a caught thrown error. -/
def errResp (e : XErr) : Resp := .err (statusOfErr e) e.error e.message

/-- The WHERE clause `where('uri','=', input.uri)`: a row matches when the
bound body value is the row's uri string (a non-string bound value never
equals the TEXT column). -/
def matchesUri (v : Option Json) (u : String) : Bool :=
  match v with
  | some (.str s) => s == u
  | _ => false

/-- The string content of a body value known to be a string (the echoed
`uri` of a successful update response). -/
def jsonStrOf (v : Option Json) : String :=
  match v with
  | some (.str s) => s
  | _ => ""

/-! ### Route handlers of `launchCustomServer` (src/server.ts) -/

/-- The canonical record built by the create handler:
`{$type, name: input.name, description: input.description||'',
createdAt: now, feeds: input.feeds||{}}`. -/
def orbitRecordOf (body : List (String × Json)) (now : String) : Json :=
  .obj [("$type", .str orbitNSID),
        ("name", (objGet body "name").getD .null),
        ("description", jsOrJson (objGet body "description") (.str "")),
        ("createdAt", .str now),
        ("feeds", jsOrJson (objGet body "feeds") (.obj []))]

/-- Validation `this.lexiconResolver && assertValidRecord(...)`: skipped when no
resolver is loaded. -/
def runResolver (r : Option (Json → Except String Unit)) (record : Json) : Except String Unit :=
  match r with
  | none => .ok ()
  | some validate => validate record

/-- The create route `POST /xrpc/org.chaoticharmonylabs.orbit.create`:
admin guard, `name` presence check, record construction, optional schema
validation, CID computation, and `insertInto('record').values({...})`.
`now` stands for `new Date().toISOString()` and `rkeyNow` for
`Date.now().toString()` at the handling instant. -/
def orbitCreate (cfg : Cfg) (hdrs : Headers) (body : List (String × Json))
    (now rkeyNow : String) (db : Db) : Resp × Db :=
  match requireAdminE hdrs cfg.adminPassword with
  | .error e => (errResp e, db)
  | .ok _ =>
    if jsTruthyOpt (objGet body "name") = false then
      (errResp { error := some "InvalidRequest", message := "name required" }, db)
    else
      let record := orbitRecordOf body now
      match runResolver cfg.resolver record with
      | .error m => (errResp { error := none, message := m }, db)
      | .ok _ =>
        let cid := createCid record
        let did := "did:web:" ++ cfg.host
        let uri := "at://" ++ did ++ "/" ++ orbitNSID ++ "/" ++ rkeyNow
        (.ok uri cid,
         db ++ [{ uri := uri, cid := cid, did := did, collection := orbitNSID,
                  rkey := rkeyNow, json := record, indexedAt := now }])

/-- The merged fields persisted by the update handler:
`{ ...base, ...updates, updatedAt: now }` where
`const { uri, ...updates } = req.body` and `base = JSON.parse(existing.json)`. -/
def mergedFields (existing : DbRecord) (body : List (String × Json)) (now : String) :
    List (String × Json) :=
  jsSet (jsSpread (jsObjFields existing.json) (removeKey body "uri")) "updatedAt" (.str now)

/-- The merged record persisted by the update handler. -/
def mergedRecord (existing : DbRecord) (body : List (String × Json)) (now : String) : Json :=
  .obj (mergedFields existing body now)

/-- The update route `POST /xrpc/org.chaoticharmonylabs.orbit.update`:
admin guard, `uri` presence check, `executeTakeFirst` lookup by uri,
shallow merge with fresh `updatedAt`, CID recomputation, and
`updateTable('record').set({cid, json, indexedAt}).where('uri','=',uri)`. -/
def orbitUpdate (cfg : Cfg) (hdrs : Headers) (body : List (String × Json))
    (now : String) (db : Db) : Resp × Db :=
  match requireAdminE hdrs cfg.adminPassword with
  | .error e => (errResp e, db)
  | .ok _ =>
    if jsTruthyOpt (objGet body "uri") = false then
      (errResp { error := some "InvalidRequest", message := "uri required" }, db)
    else
      match db.find? (fun r => matchesUri (objGet body "uri") r.uri) with
      | none => (.err 404 none "not found", db)
      | some existing =>
        let record := mergedRecord existing body now
        let cid := createCid record
        (.ok (jsonStrOf (objGet body "uri")) cid,
         db.map (fun r =>
           if matchesUri (objGet body "uri") r.uri then
             { r with cid := cid, json := record, indexedAt := now }
           else r))

/-- The result of the JavaScript `Number()` coercion, as far as the list
route observes it: `nan`, an exactly-modelled integer, or `nonInt` — a
truthy number that is not an exactly-modelled integer (a non-zero
fractional value, an infinity, or an integer of magnitude above 2^53,
where the string-to-double rounding may differ from the exact value).
Values that coerce to ±0 are classified `int 0`. -/
inductive JsNumber where
  | nan : JsNumber
  | int (n : Int) : JsNumber
  | nonInt : JsNumber
deriving DecidableEq

/-- The StrWhiteSpace characters trimmed by `Number(string)`: ASCII
whitespace, NBSP, ZWNBSP, the Unicode space separators and the line
separators. -/
def jsSpaceChar (c : Char) : Bool :=
  [9, 10, 11, 12, 13, 32, 0xA0, 0x1680, 0x2000, 0x2001, 0x2002, 0x2003, 0x2004,
   0x2005, 0x2006, 0x2007, 0x2008, 0x2009, 0x200A, 0x2028, 0x2029, 0x202F,
   0x205F, 0x3000, 0xFEFF].contains c.toNat

/-- Leading and trailing StrWhiteSpace removal. -/
def jsTrim (l : List Char) : List Char :=
  ((l.dropWhile jsSpaceChar).reverse.dropWhile jsSpaceChar).reverse

/-- A decimal digit. -/
def isDig (c : Char) : Bool := 48 ≤ c.toNat && c.toNat ≤ 57

/-- Value of a list of decimal digits. -/
def decDigitsVal (l : List Char) : Nat :=
  l.foldl (fun a c => a * 10 + (c.toNat - 48)) 0

/-- Value of one digit in radix up to 16 (`none` for a non-digit). -/
def radixDigitVal (c : Char) : Option Nat :=
  let n := c.toNat
  if 48 ≤ n ∧ n ≤ 57 then some (n - 48)
  else if 97 ≤ n ∧ n ≤ 102 then some (n - 87)
  else if 65 ≤ n ∧ n ≤ 70 then some (n - 55)
  else none

/-- Value of a non-empty digit string in the given radix (`none` when empty
or containing an out-of-radix character). -/
def radixValue (radix : Nat) (l : List Char) : Option Nat :=
  if l.isEmpty then none
  else l.foldl (fun acc c =>
    match acc, radixDigitVal c with
    | some a, some d => if d < radix then some (a * radix + d) else none
    | _, _ => none) (some 0)

/-- Classify a signed integer value: exactly modelled up to 2^53 (every
integer of magnitude at most 2^53 is an exact double, so `Number` returns
it verbatim), conservatively `nonInt` above. -/
def intOrNonInt (neg : Bool) (v : Nat) : JsNumber :=
  if v ≤ 2 ^ 53 then .int (if neg then -(v : Int) else (v : Int)) else .nonInt

/-- The `0x`/`0o`/`0b` NonDecimalIntegerLiteral forms of `Number(string)`
(unsigned, digits mandatory). -/
def radixToNumber (radix : Nat) (l : List Char) : JsNumber :=
  match radixValue radix l with
  | some v => intOrNonInt false v
  | none => .nan

/-- The decimal mantissa of StrUnsignedDecimalLiteral: integer digits, an
optional dot and fraction digits, at least one digit overall; returns the
mantissa digits' value, the fraction length and the unconsumed rest. -/
def parseDecMant (cs : List Char) : Option (Nat × Nat × List Char) :=
  let ip := cs.takeWhile isDig
  let r1 := cs.dropWhile isDig
  match r1 with
  | '.' :: r2 =>
    let fp := r2.takeWhile isDig
    let r3 := r2.dropWhile isDig
    if ip.isEmpty && fp.isEmpty then none
    else some (decDigitsVal (ip ++ fp), fp.length, r3)
  | _ =>
    if ip.isEmpty then none else some (decDigitsVal ip, 0, r1)

/-- The digits of an ExponentPart (non-empty, all decimal). -/
def parseExpDigits (neg : Bool) (ds : List Char) : Option Int :=
  if ds.isEmpty || !(ds.all isDig) then none
  else some (if neg then -(decDigitsVal ds : Int) else (decDigitsVal ds : Int))

/-- The optional ExponentPart: nothing, or `e`/`E`, an optional sign and
digits; anything else makes the numeral invalid. -/
def parseExpPart : List Char → Option Int
  | [] => some 0
  | c :: r =>
    if c = 'e' ∨ c = 'E' then
      match r with
      | '+' :: ds => parseExpDigits false ds
      | '-' :: ds => parseExpDigits true ds
      | ds => parseExpDigits false ds
    else none

/-- Classify the exact decimal value ±M·10^E: zero mantissa is ±0; an
integer value is exact up to 2^53 (values with E ≥ 54 already exceed it);
a non-integer value of magnitude at most 2^-1075 rounds (ties-to-even) to
±0; everything else is a truthy non-modelled number. -/
def classifyDec (neg : Bool) (m : Nat) (e : Int) : JsNumber :=
  if m = 0 then .int 0
  else if 0 ≤ e then
    if 54 ≤ e then .nonInt
    else intOrNonInt neg (m * 10 ^ e.toNat)
  else
    let d := 10 ^ (-e).toNat
    if m % d = 0 then intOrNonInt neg (m / d)
    else if m * 2 ^ 1075 ≤ d then .int 0
    else .nonInt

/-- The signed StrDecimalLiteral body: the `Infinity` keyword or a decimal
numeral with optional fraction and exponent. -/
def jsDecToNumber (neg : Bool) (cs : List Char) : JsNumber :=
  if cs = "Infinity".toList then .nonInt
  else
    match parseDecMant cs with
    | none => .nan
    | some (m, fl, rest) =>
      match parseExpPart rest with
      | none => .nan
      | some e => classifyDec neg m (e - (fl : Int))

/-- Coercion `Number(string)` per the ES StringToNumber grammar: trimmed
whitespace; empty is 0; unsigned hex, octal and binary literals; otherwise
an optionally signed decimal literal or `Infinity`. -/
def jsStringToNumber (s : String) : JsNumber :=
  match jsTrim s.toList with
  | [] => .int 0
  | '0' :: 'x' :: rest => radixToNumber 16 rest
  | '0' :: 'X' :: rest => radixToNumber 16 rest
  | '0' :: 'o' :: rest => radixToNumber 8 rest
  | '0' :: 'O' :: rest => radixToNumber 8 rest
  | '0' :: 'b' :: rest => radixToNumber 2 rest
  | '0' :: 'B' :: rest => radixToNumber 2 rest
  | '+' :: rest => jsDecToNumber false rest
  | '-' :: rest => jsDecToNumber true rest
  | cs => jsDecToNumber false cs

/-- Coercion of a JSON integer (the `Json.num` idealization): exact up to
2^53. -/
def jsIntToNumber (n : Int) : JsNumber :=
  if n.natAbs ≤ 2 ^ 53 then .int n else .nonInt

mutual

/-- Coercion `Number(array)` via `ToPrimitive`/`Array.prototype.join`: the
empty array joins to `""` (0), a single element converts through its string
form (`null` joins as the empty string, booleans as non-numeric words,
nested single-element arrays transparently), and two or more elements
produce a comma-bearing string, which is never numeric. -/
def jsArrToNumber : List Json → JsNumber
  | [] => .int 0
  | [x] => jsElemToNumber x
  | _ :: _ :: _ => .nan

/-- Coercion of a single array element through its `join` string form. -/
def jsElemToNumber : Json → JsNumber
  | .null => .int 0
  | .bool _ => .nan
  | .num n => jsIntToNumber n
  | .str s => jsStringToNumber s
  | .arr l => jsArrToNumber l
  | .obj _ => .nan

end

/-- Coercion `Number(value)` for the value shapes a parsed JSON body can
carry: `null` is 0, booleans are 0 and 1, numbers and strings as above,
arrays through join, objects are always `NaN` (`"[object Object]"`). -/
def jsToNumber : Json → JsNumber
  | .null => .int 0
  | .bool b => .int (if b then 1 else 0)
  | .num n => jsIntToNumber n
  | .str s => jsStringToNumber s
  | .arr l => jsArrToNumber l
  | .obj _ => .nan

/-- Coercion `Number(req.body.limit)`: an absent property is `undefined`,
which coerces to `NaN`. -/
def jsNumberOpt (v : Option Json) : JsNumber :=
  match v with
  | none => .nan
  | some j => jsToNumber j

/-- Defaulting `Number(req.body.limit) || 50`: `NaN` and ±0 are falsy and
fall back to 50; every `nonInt` classification is a truthy number
(non-zero fractional, infinite or large) and is kept. -/
def jsOr50 (v : JsNumber) : JsNumber :=
  match v with
  | .nan => .int 50
  | .int n => if n == 0 then .int 50 else .int n
  | .nonInt => .nonInt

/-- The effective limit of the list route. -/
def effectiveLimit (body : List (String × Json)) : JsNumber :=
  jsOr50 (jsNumberOpt (objGet body "limit"))

/-- The bounded fetch
`selectFrom('record').where('collection','=',orbitNSID).selectAll().limit(n).execute()`
delegated to the external database collaborator: for an integer bound it
returns at most that many matching rows per its contract.  A non-integer
or beyond-2^53 limit reaches the external database, whose handling (an
error or a coercion) lies outside this repository; the model passes the
query through there and no theorem constrains that case. -/
def listWithLimit (n : JsNumber) (db : Db) : List DbRecord :=
  match n with
  | .int m => (db.filter (fun r => r.collection == orbitNSID)).take m.toNat
  | _ => db.filter (fun r => r.collection == orbitNSID)

/-- The list route `POST /xrpc/org.chaoticharmonylabs.orbit.list`: parses the
limit with default 50 and delegates the bounded fetch.  The response maps the
rows one-to-one to `{uri, cid, value}` entries, so it is modelled as the row
list itself. -/
def orbitList (body : List (String × Json)) (db : Db) : List DbRecord :=
  listWithLimit (effectiveLimit body) db

/-! ### Mock handlers of `registerOrbitHandlers` (first server variant)

The earlier variant in `src/server.ts` responds with mock data: its cid
values are `'bafyrei' + Math.random().toString(36).substring(7)`.  The
random suffix is passed in as a parameter. -/

/-- The mock cid: `'bafyrei' + <random suffix>`. -/
def mockOrbitCid (rand : String) : String := "bafyrei" ++ rand

/-- The mock create handler: admin guard, then schema validation of the raw
input (wrapped as `InvalidRequest: Invalid orbit data: ...`), then the
`name` presence check, then a mock `{uri, cid}` response whose cid is
random.  No storage exists in this variant. -/
def mockOrbitCreate (adminPassword : String) (resolver : Option (Json → Except String Unit))
    (hdrs : Headers) (input : Json) (host rkeyNow rand : String) :
    Except XErr (String × String) :=
  match requireAdminE hdrs adminPassword with
  | .error e => .error e
  | .ok _ =>
    match runResolver resolver input with
    | .error m => .error { error := some "InvalidRequest", message := "Invalid orbit data: " ++ m }
    | .ok _ =>
      if jsTruthyOpt (objGet (jsObjFields input) "name") = false then
        .error { error := some "InvalidRequest", message := "Name is required" }
      else
        .ok ("at://did:web:" ++ host ++ "/" ++ orbitNSID ++ "/" ++ rkeyNow,
             mockOrbitCid rand)

/-- The mock list handler: parses a limit (default 50), logs it, and returns
two fixed orbits regardless of the limit.  Entries are `(uri, cid, value)`. -/
def mockOrbitList (_limit : Int) (host now rand1 rand2 : String) :
    List (String × String × Json) :=
  [("at://did:web:" ++ host ++ "/" ++ orbitNSID ++ "/1",
    mockOrbitCid rand1,
    .obj [("name", .str "Photography"),
          ("description", .str "Photos and visual content"),
          ("createdAt", .str now),
          ("feeds", .obj [])]),
   ("at://did:web:" ++ host ++ "/" ++ orbitNSID ++ "/2",
    mockOrbitCid rand2,
    .obj [("name", .str "Philosophy"),
          ("description", .str "Deep thoughts and discussions"),
          ("createdAt", .str now),
          ("feeds", .obj [])])]

/-! ### Lexicon loaders

A schema file is `(filename, JSON.parse outcome)`: the loaders observe files
only through `readdirSync` names and `JSON.parse(readFileSync ...)`, so the
parse outcome is the file's content in the model.  A directory is `none`
when `fs.existsSync` is false; the tree is the fixed `['orbit','feed','user']
` subdirectory list. -/

/-- The test `file.endsWith('.json')` on file names (computed on the character
lists). -/
def strEndsWith (s post : String) : Bool :=
  listHasPre post.toList.reverse s.toList.reverse

/-- A schema file: name and `JSON.parse` outcome. -/
abbrev LexFile := String × Except Unit Json

/-- A schema subdirectory (or `none` when absent). -/
abbrev LexDir := Option (List LexFile)

/-- The inner file loop of `loadCustomLexicons`: `.json` files are parsed and
inserted into the registry keyed by a truthy `id` (`Map.set`, later entries
overwriting).  A parse failure propagates out as a thrown exception carrying
the registry accumulated so far (the `this.lexicons` map already mutated).
Lexicon ids are strings; a truthy non-string id (which JS would use as a Map
key unchanged) is not modelled. -/
def loadFilesAbort (acc : List (String × Json)) :
    List LexFile → Except (List (String × Json)) (List (String × Json))
  | [] => .ok acc
  | (name, content) :: rest =>
    if strEndsWith name ".json" then
      match content with
      | .error _ => .error acc
      | .ok data =>
        let acc' :=
          match objGet (jsObjFields data) "id" with
          | some (.str s) => if s == "" then acc else jsSet acc s data
          | _ => acc
        loadFilesAbort acc' rest
    else loadFilesAbort acc rest

/-- The directory loop of `loadCustomLexicons`; a thrown parse error
propagates past the remaining directories. -/
def loadDirsAbort (acc : List (String × Json)) :
    List LexDir → Except (List (String × Json)) (List (String × Json))
  | [] => .ok acc
  | d :: rest =>
    match d with
    | none => loadDirsAbort acc rest
    | some files =>
      match loadFilesAbort acc files with
      | .error a => .error a
      | .ok a => loadDirsAbort a rest

/-- The loader `loadCustomLexicons` (first server variant): the whole walk runs inside a
single try/catch, so the first malformed `.json` file aborts the remaining
loading; the catch logs the error and the method returns with the registry
as mutated so far. -/
def loadCustomLexicons (tree : List LexDir) : List (String × Json) :=
  match loadDirsAbort [] tree with
  | .ok m => m
  | .error m => m

/-- One directory of `loadLexicons` (second server variant):
`readdirSync(dir).filter(f => f.endsWith('.json'))`, then a per-file
try/catch that pushes each successfully parsed document and logs and skips
each malformed one. -/
def loadDirSkip (files : List LexFile) : List Json :=
  (files.filter (fun f => strEndsWith f.1 ".json")).filterMap (fun f => f.2.toOption)

/-- One step of the directory walk of `loadLexicons`: a missing directory
contributes nothing (`fs.existsSync` guard), an existing one contributes its
well-formed `.json` documents. -/
def loadLexStep (acc : List Json) (d : LexDir) : List Json :=
  match d with
  | none => acc
  | some files => acc ++ loadDirSkip files

/-- The loader `loadLexicons` (second server variant): collects every well-formed
`.json` document across the existing schema directories; malformed files are
logged and skipped without stopping the walk. -/
def loadLexicons (tree : List LexDir) : List Json :=
  tree.foldl loadLexStep []

/-- A tree with the malformed `.json` files removed (used to state that
`loadLexicons` skips them). -/
def stripMalformed (tree : List LexDir) : List LexDir :=
  tree.map (Option.map (List.filter
    (fun f => !(strEndsWith f.1 ".json") || f.2.toOption.isSome)))

/-! ### Helper lemmas about the admin guard -/

/-- The candidate chain never yields the empty string: `||` skips it. -/
theorem foldr_jsOrS_ne_empty (hdrs : Headers) (names : List String) (s : String)
    (h : names.foldr (fun k acc => jsOrS (normLookup hdrs k) acc) none = some s) :
    s ≠ "" := by
  induction names with
  | nil => simp at h
  | cons k rest ih =>
    rw [List.foldr_cons] at h
    rcases hv : normLookup hdrs k with _ | v <;> rw [hv] at h <;> simp only [jsOrS] at h
    · exact ih h
    · by_cases hv0 : (v == "") = true
      · rw [if_pos hv0] at h; exact ih h
      · rw [if_neg hv0] at h
        injection h with h'
        subst h'
        simpa using hv0

/-- The chain `adminCandidate` never selects an empty value. -/
theorem adminCandidate_ne_empty (hdrs : Headers) (s : String)
    (h : adminCandidate hdrs = some s) : s ≠ "" :=
  foldr_jsOrS_ne_empty hdrs adminHeaderNames s h

/-- The guard `requireAdmin` succeeds exactly when the first non-empty recognized
header value equals the (necessarily non-empty) configured password. -/
theorem requireAdminOk_iff (hdrs : Headers) (pw : String) :
    requireAdminOk hdrs pw = true ↔ (adminCandidate hdrs = some pw ∧ pw ≠ "") := by
  unfold requireAdminOk requireAdminE
  rcases hc : adminCandidate hdrs with _ | c
  · simp
  · have hne : c ≠ "" := adminCandidate_ne_empty hdrs c hc
    have h0 : (c == "") = false := by simpa using hne
    by_cases hpw : c = pw
    · subst hpw
      simp [h0, hne]
    · have h1 : (c == pw) = false := by simpa using hpw
      simp [h0, h1, hpw]

/-- The guard either returns or throws exactly `AuthMissing`. -/
theorem requireAdminE_cases (hdrs : Headers) (pw : String) :
    requireAdminE hdrs pw = .ok () ∨ requireAdminE hdrs pw = .error authMissingErr := by
  unfold requireAdminE
  rcases adminCandidate hdrs with _ | c
  · exact .inr rfl
  · by_cases h0 : (c == "") = true
    · simp [h0]
    · by_cases h1 : (c == pw) = true
      · simp [h0, h1]
      · simp [h0, h1]

/-- A failing guard throws exactly `AuthMissing`. -/
theorem requireAdminE_error_of (hdrs : Headers) (pw : String)
    (h : requireAdminOk hdrs pw = false) :
    requireAdminE hdrs pw = .error authMissingErr := by
  rcases requireAdminE_cases hdrs pw with h1 | h1
  · unfold requireAdminOk at h
    rw [h1] at h
    cases h
  · exact h1

/-- A succeeding guard returns. -/
theorem requireAdminE_ok_of (hdrs : Headers) (pw : String)
    (h : requireAdminOk hdrs pw = true) :
    requireAdminE hdrs pw = .ok () := by
  unfold requireAdminOk at h
  rcases he : requireAdminE hdrs pw with e | u
  · rw [he] at h; cases h
  · cases u; rfl

/-! ### Claim C1 -/

/-- C1: a create or update request whose headers do not carry a valid admin
credential fails with the `AuthMissing` error (served as a 403) before any
input validation — for every body, including invalid ones — and the `record`
table is left unchanged. -/
theorem c1_auth_before_validation_and_storage
    (cfg : Cfg) (hdrs : Headers) (body : List (String × Json))
    (now rkeyNow : String) (db : Db)
    (h : requireAdminOk hdrs cfg.adminPassword = false) :
    orbitCreate cfg hdrs body now rkeyNow db
      = (.err 403 (some "AuthMissing") "Authentication Required", db)
    ∧ orbitUpdate cfg hdrs body now db
      = (.err 403 (some "AuthMissing") "Authentication Required", db) := by
  have he := requireAdminE_error_of hdrs cfg.adminPassword h
  constructor
  · unfold orbitCreate
    rw [he]
    rfl
  · unfold orbitUpdate
    rw [he]
    rfl

/-- Witness for C1 at a concrete unauthorized request. -/
theorem c1_witness :
    orbitCreate (Cfg.ofEnv (some "pw") none none) [] [("name", .str "X")] "T" "1" []
      = (.err 403 (some "AuthMissing") "Authentication Required", [])
    ∧ orbitUpdate (Cfg.ofEnv (some "pw") none none) [] [("name", .str "X")] "T" []
      = (.err 403 (some "AuthMissing") "Authentication Required", []) :=
  c1_auth_before_validation_and_storage _ _ _ _ _ _ (by rfl)

/-! ### Claim C2 -/

/-- Modelled from the claim's words, for comparison: the first *present*
value among the recognized header names (an empty header value is present). -/
def firstPresentAdminValue (hdrs : Headers) : Option String :=
  adminHeaderNames.findSome? (fun k => normLookup hdrs k)

/-- Headers carrying an empty first recognized header and the secret in the
second one. -/
def c2hdrs : Headers := [("X-Orbits-Admin", .str ""), ("X-Admin-Secret", .str "s")]

/-- C2 counterexample: with `X-Orbits-Admin: ""` and `X-Admin-Secret: s` and
secret `"s"`, the first *present* recognized value is `""`, which does not
equal the secret — so the claim as stated demands `AuthMissing` — yet
`requireAdmin` succeeds, because JavaScript `||` skips the empty string. -/
theorem c2_counterexample :
    firstPresentAdminValue c2hdrs = some "" ∧ ("" : String) ≠ "s"
    ∧ requireAdminOk c2hdrs "s" = true :=
  ⟨rfl, by decide, rfl⟩

/-- C2 (amended): `requireAdmin` normalizes header names case-insensitively
(later duplicates overwriting), selects the first *non-empty* value among
the six recognized names in order (`adminCandidate`), and succeeds exactly
when that value equals the configured secret verbatim, the secret being
necessarily non-empty; it fails with `AuthMissing` otherwise. -/
theorem c2_admin_guard_semantics (hdrs : Headers) (pw : String) :
    requireAdminOk hdrs pw = true ↔ (adminCandidate hdrs = some pw ∧ pw ≠ "") :=
  requireAdminOk_iff hdrs pw

/-! ### Claim C10 -/

/-- Headers supplying `admin123` in a recognized header (`admin`) while an
earlier recognized header carries a wrong value. -/
def c10hdrs : Headers := [("x-orbits-admin", .str "wrong"), ("admin", .str "admin123")]

/-- C10 counterexample: with the admin-password environment variable unset
the secret defaults to `admin123`, and `c10hdrs` supplies `admin123` in the
recognized `admin` header — so the claim as stated demands acceptance — yet
`requireAdmin` rejects the request, because the earlier recognized header
`x-orbits-admin` carries a non-empty wrong value that masks it. -/
theorem c10_counterexample :
    (Cfg.ofEnv none none none).adminPassword = "admin123"
    ∧ normLookup c10hdrs "admin" = some "admin123"
    ∧ requireAdminOk c10hdrs (Cfg.ofEnv none none none).adminPassword = false :=
  ⟨rfl, rfl, rfl⟩

/-- C10 (amended): if the admin-password environment variable is unset or
empty, the configured secret is the literal `admin123`, and `requireAdmin`
then accepts exactly those requests whose first non-empty recognized admin
header value is `admin123`. -/
theorem c10_default_admin_password (env host : Option String)
    (res : Option (Json → Except String Unit)) (hdrs : Headers)
    (h : env = none ∨ env = some "") :
    (Cfg.ofEnv env host res).adminPassword = "admin123"
    ∧ (requireAdminOk hdrs (Cfg.ofEnv env host res).adminPassword = true ↔
       adminCandidate hdrs = some "admin123") := by
  have hpw : (Cfg.ofEnv env host res).adminPassword = "admin123" := by
    rcases h with h | h <;> subst h <;> rfl
  refine ⟨hpw, ?_⟩
  rw [hpw, requireAdminOk_iff]
  constructor
  · exact fun hx => hx.1
  · intro hx
    exact ⟨hx, by decide⟩

/-- Witness for C10 at a concrete request supplying the default secret. -/
theorem c10_witness :
    (Cfg.ofEnv none none none).adminPassword = "admin123"
    ∧ (requireAdminOk [("admin", HVal.str "admin123")]
         (Cfg.ofEnv none none none).adminPassword = true ↔
       adminCandidate [("admin", HVal.str "admin123")] = some "admin123") :=
  c10_default_admin_password none none none [("admin", HVal.str "admin123")] (Or.inl rfl)

/-! ### Claim C3 -/

/-- C3: a create whose `name` is missing or empty (falsy) leaves the
`record` table untouched unconditionally, and — when the request is
authorized, so that the name check is reached — fails with
`InvalidRequest` (served as a 400).  The same holds of the mock variant,
where schema validation precedes the name check but both paths throw
`InvalidRequest` and no storage exists. -/
theorem c3_create_requires_name
    (cfg : Cfg) (hdrs : Headers) (body : List (String × Json))
    (now rkeyNow : String) (db : Db)
    (h : jsTruthyOpt (objGet body "name") = false) :
    (orbitCreate cfg hdrs body now rkeyNow db).2 = db
    ∧ (requireAdminOk hdrs cfg.adminPassword = true →
       (orbitCreate cfg hdrs body now rkeyNow db).1
         = .err 400 (some "InvalidRequest") "name required")
    ∧ (∀ (resolver : Option (Json → Except String Unit)) (host rk2 rand : String),
       requireAdminOk hdrs cfg.adminPassword = true →
       ∃ m, mockOrbitCreate cfg.adminPassword resolver hdrs (Json.obj body) host rk2 rand
         = .error { error := some "InvalidRequest", message := m }) := by
  refine ⟨?_, ?_, ?_⟩
  · rcases requireAdminE_cases hdrs cfg.adminPassword with he | he <;>
      unfold orbitCreate <;> rw [he]
    rw [if_pos h]
  · intro hadmin
    have he := requireAdminE_ok_of hdrs cfg.adminPassword hadmin
    unfold orbitCreate
    rw [he, if_pos h]
    rfl
  · intro resolver host rk2 rand hadmin
    have he := requireAdminE_ok_of hdrs cfg.adminPassword hadmin
    unfold mockOrbitCreate
    rw [he]
    rcases hr : runResolver resolver (Json.obj body) with m | u
    · exact ⟨"Invalid orbit data: " ++ m, rfl⟩
    · refine ⟨"Name is required", ?_⟩
      have h' : jsTruthyOpt (objGet (jsObjFields (Json.obj body)) "name") = false := h
      rw [if_pos h']

/-- Witness for C3 at a concrete authorized create with no `name`. -/
theorem c3_witness :
    (orbitCreate (Cfg.ofEnv (some "pw") none none) [("admin", .str "pw")] [] "T" "1" []).2 = []
    ∧ (orbitCreate (Cfg.ofEnv (some "pw") none none) [("admin", .str "pw")] [] "T" "1" []).1
        = .err 400 (some "InvalidRequest") "name required"
    ∧ ∃ m, mockOrbitCreate (Cfg.ofEnv (some "pw") none none).adminPassword none
        [("admin", .str "pw")] (Json.obj []) "localhost" "1" "r"
        = .error { error := some "InvalidRequest", message := m } := by
  have T := c3_create_requires_name (Cfg.ofEnv (some "pw") none none)
    [("admin", .str "pw")] [] "T" "1" [] (by rfl)
  exact ⟨T.1, T.2.1 (by rfl), T.2.2 none "localhost" "1" "r" (by rfl)⟩

/-! ### Lemmas about JS object writes and spreads -/

/-- Property read on a cons cell. -/
theorem objGet_cons (p : String × Json) (t : List (String × Json)) (k : String) :
    objGet (p :: t) k = if p.1 == k then some p.2 else objGet t k := by
  unfold objGet
  cases hp : (p.1 == k) <;> simp [List.find?, hp]

/-- Property read distributes over append. -/
theorem objGet_append (l1 l2 : List (String × Json)) (k : String) :
    objGet (l1 ++ l2) k = (objGet l1 k).or (objGet l2 k) := by
  induction l1 with
  | nil => rfl
  | cons p t ih =>
    rw [List.cons_append, objGet_cons, objGet_cons]
    by_cases hp : (p.1 == k) = true
    · rw [if_pos hp, if_pos hp]
      rfl
    · rw [if_neg hp, if_neg hp, ih]

/-- A key absent from the key list is not found. -/
theorem objGet_eq_none_of_not_mem (l : List (String × Json)) (k : String)
    (h : k ∉ l.map Prod.fst) : objGet l k = none := by
  induction l with
  | nil => rfl
  | cons p t ih =>
    rw [List.map_cons, List.mem_cons, not_or] at h
    rw [objGet_cons, if_neg (by simpa using (Ne.symm h.1))]
    exact ih h.2

/-- If no entry has key `k`, `any` over the key test is false. -/
theorem any_key_false_of_objGet_none (l : List (String × Json)) (k : String)
    (h : objGet l k = none) : l.any (fun p => p.1 == k) = false := by
  induction l with
  | nil => rfl
  | cons p t ih =>
    rw [objGet_cons] at h
    by_cases hp : (p.1 == k) = true
    · rw [if_pos hp] at h
      cases h
    · rw [if_neg hp] at h
      rw [List.any_cons, ih h]
      simpa using hp

/-- Writing `o[k] = v` makes `o[k]` read `v`. -/
theorem objGet_jsSet_self (l : List (String × Json)) (k : String) (v : Json) :
    objGet (jsSet l k v) k = some v := by
  unfold jsSet
  by_cases hc : l.any (fun p => p.1 == k) = true
  · rw [if_pos hc]
    induction l with
    | nil => cases hc
    | cons p t ih =>
      rw [List.any_cons, Bool.or_eq_true] at hc
      rw [List.map_cons]
      by_cases hp : (p.1 == k) = true
      · rw [if_pos hp, objGet_cons, if_pos (by simp)]
      · rw [if_neg hp, objGet_cons, if_neg hp]
        rcases hc with h | h
        · exact absurd h hp
        · exact ih h
  · rw [if_neg hc]
    rw [objGet_append]
    have hn : objGet l k = none := by
      induction l with
      | nil => rfl
      | cons p t ih =>
        rw [List.any_cons, Bool.or_eq_true, not_or] at hc
        rw [objGet_cons, if_neg hc.1]
        exact ih hc.2
    rw [hn, objGet_cons, if_pos (by simp)]
    rfl

/-- Writing `o[k] = v` leaves every other key unchanged. -/
theorem objGet_jsSet_ne (l : List (String × Json)) (k k' : String) (v : Json)
    (h : k' ≠ k) : objGet (jsSet l k v) k' = objGet l k' := by
  have hkk : ¬ (((k : String) == k') = true) := by simpa using (Ne.symm h)
  unfold jsSet
  by_cases hc : l.any (fun p => p.1 == k) = true
  · rw [if_pos hc]
    clear hc
    induction l with
    | nil => rfl
    | cons p t ih =>
      rw [List.map_cons]
      by_cases hp : (p.1 == k) = true
      · have hpk : p.1 = k := by simpa using hp
        rw [if_pos hp, objGet_cons, objGet_cons, if_neg hkk, if_neg (by rw [hpk]; exact hkk)]
        exact ih
      · rw [if_neg hp, objGet_cons, objGet_cons]
        by_cases hq : (p.1 == k') = true
        · rw [if_pos hq, if_pos hq]
        · rw [if_neg hq, if_neg hq]
          exact ih
  · rw [if_neg hc, objGet_append, objGet_cons, if_neg hkk]
    rcases hf : objGet l k' with _ | w
    · rfl
    · rfl

/-- Spreading fields that do not mention `k` leaves `k` unchanged. -/
theorem objGet_spread_none (R P : List (String × Json)) (k : String)
    (h : objGet P k = none) : objGet (jsSpread R P) k = objGet R k := by
  induction P generalizing R with
  | nil => rfl
  | cons p t ih =>
    rw [objGet_cons] at h
    by_cases hp : (p.1 == k) = true
    · rw [if_pos hp] at h
      cases h
    · rw [if_neg hp] at h
      show objGet (jsSpread (jsSet R p.1 p.2) t) k = objGet R k
      rw [ih (jsSet R p.1 p.2) h]
      have hne : p.1 ≠ k := by simpa using hp
      exact objGet_jsSet_ne R p.1 k p.2 (Ne.symm hne)

/-- Spreading fields that set `k` (keys unique, as in a parsed JS object)
makes `k` read the spread value. -/
theorem objGet_spread_some (R P : List (String × Json)) (k : String) (v : Json)
    (hnd : (P.map Prod.fst).Nodup) (h : objGet P k = some v) :
    objGet (jsSpread R P) k = some v := by
  induction P generalizing R with
  | nil => cases h
  | cons p t ih =>
    rw [List.map_cons, List.nodup_cons] at hnd
    rw [objGet_cons] at h
    by_cases hp : (p.1 == k) = true
    · have hpk : p.1 = k := by simpa using hp
      rw [if_pos hp] at h
      have hv : v = p.2 := by
        injection h with h'
        exact h'.symm
      have htn : objGet t k = none :=
        objGet_eq_none_of_not_mem t k (by rw [← hpk]; exact hnd.1)
      show objGet (jsSpread (jsSet R p.1 p.2) t) k = some v
      rw [objGet_spread_none (jsSet R p.1 p.2) t k htn, hpk, hv]
      exact objGet_jsSet_self R k p.2
    · rw [if_neg hp] at h
      show objGet (jsSpread (jsSet R p.1 p.2) t) k = some v
      exact ih (jsSet R p.1 p.2) hnd.2 h

/-! ### Claims C4 and C5 -/

/-- An authorized update on a found record responds with the body's uri and
the fingerprint of the merged record, and rewrites exactly the matching rows
with the merged record, its fingerprint and a fresh `indexedAt`. -/
theorem orbitUpdate_found
    (cfg : Cfg) (hdrs : Headers) (body : List (String × Json)) (now u : String)
    (db : Db) (existing : DbRecord)
    (hadmin : requireAdminOk hdrs cfg.adminPassword = true)
    (huri : objGet body "uri" = some (.str u))
    (hne : u ≠ "")
    (hfind : db.find? (fun r => matchesUri (objGet body "uri") r.uri) = some existing) :
    orbitUpdate cfg hdrs body now db
      = (.ok u (createCid (mergedRecord existing body now)),
         db.map (fun r =>
           if matchesUri (objGet body "uri") r.uri then
             { r with cid := createCid (mergedRecord existing body now),
                      json := mergedRecord existing body now, indexedAt := now }
           else r)) := by
  unfold orbitUpdate
  rw [requireAdminE_ok_of hdrs cfg.adminPassword hadmin]
  have ht : jsTruthyOpt (objGet body "uri") = true := by
    rw [huri]
    simp [jsTruthyOpt, jsTruthy]
    simpa using hne
  rw [ht, if_neg (by simp), hfind, huri]
  rfl

/-- C4: for every stored record `R` at `uri` and every partial-field body,
an authorized `update` persists at the matching rows exactly the shallow
merge of the partial fields (the body minus `uri`) over `R` with `updatedAt`
set to the current time, and responds with the same uri and the fingerprint
recomputed over the merged record.  Field-wise: a field supplied in the
partial update (keys unique, as parsed JSON) reads its new value entirely, a
field absent from it reads `R`'s value, and `updatedAt` reads the current
time. -/
theorem c4_update_shallow_merge
    (cfg : Cfg) (hdrs : Headers) (body : List (String × Json)) (now u : String)
    (db : Db) (existing : DbRecord)
    (hadmin : requireAdminOk hdrs cfg.adminPassword = true)
    (huri : objGet body "uri" = some (.str u))
    (hne : u ≠ "")
    (hfind : db.find? (fun r => matchesUri (objGet body "uri") r.uri) = some existing)
    (hnodup : ((removeKey body "uri").map Prod.fst).Nodup) :
    orbitUpdate cfg hdrs body now db
      = (.ok u (createCid (mergedRecord existing body now)),
         db.map (fun r =>
           if matchesUri (objGet body "uri") r.uri then
             { r with cid := createCid (mergedRecord existing body now),
                      json := mergedRecord existing body now, indexedAt := now }
           else r))
    ∧ objGet (mergedFields existing body now) "updatedAt" = some (.str now)
    ∧ (∀ k v, k ≠ "updatedAt" → objGet (removeKey body "uri") k = some v →
       objGet (mergedFields existing body now) k = some v)
    ∧ (∀ k, k ≠ "updatedAt" → objGet (removeKey body "uri") k = none →
       objGet (mergedFields existing body now) k
         = objGet (jsObjFields existing.json) k) := by
  refine ⟨orbitUpdate_found cfg hdrs body now u db existing hadmin huri hne hfind, ?_, ?_, ?_⟩
  · exact objGet_jsSet_self _ "updatedAt" (.str now)
  · intro k v hk hsome
    unfold mergedFields
    rw [objGet_jsSet_ne _ "updatedAt" k (.str now) hk]
    exact objGet_spread_some _ _ k v hnodup hsome
  · intro k hk hnone
    unfold mergedFields
    rw [objGet_jsSet_ne _ "updatedAt" k (.str now) hk]
    exact objGet_spread_none _ _ k hnone

/-- The uri used by the concrete update examples. -/
def exUri : String := "at://did:web:localhost/" ++ orbitNSID ++ "/1"

/-- A stored orbit row used by the concrete update examples. -/
def exRow : DbRecord :=
  { uri := exUri
    cid := { version := 1, codec := 0x55, hashCode := 0x12, hashLength := 32, digest := [] }
    did := "did:web:localhost"
    collection := orbitNSID
    rkey := "1"
    json := .obj [("$type", .str orbitNSID), ("name", .str "Old"),
                  ("description", .str "d"), ("createdAt", .str "A"), ("feeds", .obj [])]
    indexedAt := "A" }

/-- A partial update supplying only `name`. -/
def exBodyName : List (String × Json) := [("uri", .str exUri), ("name", .str "New")]

/-- Witness for C4 at a concrete authorized update of a stored record. -/
theorem c4_witness :
    objGet (mergedFields exRow exBodyName "T") "name" = some (.str "New")
    ∧ objGet (mergedFields exRow exBodyName "T") "createdAt"
        = objGet (jsObjFields exRow.json) "createdAt"
    ∧ objGet (mergedFields exRow exBodyName "T") "updatedAt" = some (.str "T") := by
  have T := c4_update_shallow_merge (Cfg.ofEnv (some "pw") none none)
    [("admin", .str "pw")] exBodyName "T" exUri [exRow] exRow
    (by rfl) (by rfl) (by decide) (by rfl) (by decide)
  exact ⟨T.2.2.1 "name" (.str "New") (by decide) rfl,
         T.2.2.2 "createdAt" (by decide) rfl,
         T.2.1⟩

/-- A partial update supplying a `createdAt` field. -/
def exBodyCreatedAt : List (String × Json) :=
  [("uri", .str exUri), ("createdAt", .str "B")]

/-- C5 counterexample: an authorized update whose partial fields include
`createdAt: "B"` rewrites the stored record's `createdAt` from `"A"` to
`"B"` — the shallow merge spreads every supplied field, so `createdAt` is
not immutable against updates that supply it. -/
theorem c5_counterexample :
    ((orbitUpdate (Cfg.ofEnv (some "pw") none none) [("admin", .str "pw")]
        exBodyCreatedAt "T" [exRow]).2.map
       (fun r => objGet (jsObjFields r.json) "createdAt")) = [some (.str "B")]
    ∧ objGet (jsObjFields exRow.json) "createdAt" = some (.str "A")
    ∧ ("A" : String) ≠ "B" :=
  ⟨rfl, rfl, by decide⟩

/-- C5 (amended): the stored `createdAt` survives every update whose partial
fields do not supply a `createdAt` field: the merged record stored by such
an update reads `createdAt` from the existing record. -/
theorem c5_createdAt_preserved
    (cfg : Cfg) (hdrs : Headers) (body : List (String × Json)) (now u : String)
    (db : Db) (existing : DbRecord)
    (hadmin : requireAdminOk hdrs cfg.adminPassword = true)
    (huri : objGet body "uri" = some (.str u))
    (hne : u ≠ "")
    (hfind : db.find? (fun r => matchesUri (objGet body "uri") r.uri) = some existing)
    (hnc : objGet (removeKey body "uri") "createdAt" = none) :
    objGet (mergedFields existing body now) "createdAt"
      = objGet (jsObjFields existing.json) "createdAt"
    ∧ (orbitUpdate cfg hdrs body now db).2
      = db.map (fun r =>
          if matchesUri (objGet body "uri") r.uri then
            { r with cid := createCid (mergedRecord existing body now),
                     json := mergedRecord existing body now, indexedAt := now }
          else r) := by
  constructor
  · unfold mergedFields
    rw [objGet_jsSet_ne _ "updatedAt" "createdAt" (.str now) (by decide)]
    exact objGet_spread_none _ _ "createdAt" hnc
  · exact congrArg Prod.snd
      (orbitUpdate_found cfg hdrs body now u db existing hadmin huri hne hfind)

/-- Witness for C5 at a concrete authorized update not supplying `createdAt`. -/
theorem c5_witness :
    objGet (mergedFields exRow exBodyName "T") "createdAt"
      = objGet (jsObjFields exRow.json) "createdAt" := by
  have T := c5_createdAt_preserved (Cfg.ofEnv (some "pw") none none)
    [("admin", .str "pw")] exBodyName "T" exUri [exRow] exRow
    (by rfl) (by rfl) (by decide) (by rfl) (by rfl)
  exact T.1

/-! ### Claims C6 and C7 -/

/-- The cid of a successful create response is the fingerprint of the
canonical record built from the body and timestamp alone. -/
theorem orbitCreate_ok_cid
    (cfg : Cfg) (hdrs : Headers) (body : List (String × Json))
    (now rkeyNow : String) (db : Db) (u : String) (c : Cid) (s : Db)
    (h : orbitCreate cfg hdrs body now rkeyNow db = (.ok u c, s)) :
    c = createCid (orbitRecordOf body now) := by
  simp only [orbitCreate] at h
  split at h
  · simp [errResp, Prod.ext_iff] at h
  · split at h
    · simp [errResp, Prod.ext_iff] at h
    · split at h
      · simp [errResp, Prod.ext_iff] at h
      · rw [Prod.ext_iff] at h
        have := h.1
        simp only [Resp.ok.injEq] at this
        exact this.2.symm

/-- The cid carried by a response, when successful. -/
def respCid : Resp → Option Cid
  | .ok _ c => some c
  | .err _ _ _ => none

/-- C6 (amended): `createCid` is a pure deterministic function — repeated application
to the unchanged record gives equal fingerprints — and the fingerprint in a
successful create response depends only on the record content (body fields
and creation instant): two successful creates of the same body at the same
instant return the same cid whatever the configuration, headers, record key
or database state.  (The mock variant's random cid is claim C6's
counterexample and is treated there.) -/
theorem c6_fingerprint_deterministic :
    (∀ x : Json, createCid x = createCid x)
    ∧ ∀ (cfg cfg' : Cfg) (hdrs hdrs' : Headers) (body : List (String × Json))
        (now rk rk' : String) (db db' : Db) (u u' : String) (c c' : Cid) (s s' : Db),
        orbitCreate cfg hdrs body now rk db = (.ok u c, s) →
        orbitCreate cfg' hdrs' body now rk' db' = (.ok u' c', s') →
        c = c' := by
  refine ⟨fun _ => rfl, ?_⟩
  intro cfg cfg' hdrs hdrs' body now rk rk' db db' u u' c c' s s' h1 h2
  rw [orbitCreate_ok_cid cfg hdrs body now rk db u c s h1,
      orbitCreate_ok_cid cfg' hdrs' body now rk' db' u' c' s' h2]

/-- C6 counterexample: the mock create handler's cid is
`'bafyrei' + Math.random()...` — two calls serving the very same record with
different random draws return different fingerprints, so the mock variant's
returned fingerprint does not depend only on the record's content. -/
theorem c6_counterexample :
    mockOrbitCid "aaaaaa" ≠ mockOrbitCid "bbbbbb" := by
  decide

/-- The body used by the concrete create examples. -/
def c6body : List (String × Json) := [("name", .str "Photography")]

/-- Witness for C6: two concrete successful creates with different
configurations, headers, record keys and database states return the same
fingerprint. -/
theorem c6_witness :
    respCid (orbitCreate (Cfg.ofEnv (some "pw") none none)
      [("admin", .str "pw")] c6body "T" "1" []).1
    = respCid (orbitCreate (Cfg.ofEnv (some "pw2") (some "example.com") none)
      [("x-admin-secret", .str "pw2")] c6body "T" "2" [exRow]).1 := by
  have h1 : orbitCreate (Cfg.ofEnv (some "pw") none none)
      [("admin", .str "pw")] c6body "T" "1" []
      = (.ok ("at://did:web:localhost/" ++ orbitNSID ++ "/1")
             (createCid (orbitRecordOf c6body "T")),
         [{ uri := "at://did:web:localhost/" ++ orbitNSID ++ "/1",
            cid := createCid (orbitRecordOf c6body "T"), did := "did:web:localhost",
            collection := orbitNSID, rkey := "1", json := orbitRecordOf c6body "T",
            indexedAt := "T" }]) := rfl
  have h2 : orbitCreate (Cfg.ofEnv (some "pw2") (some "example.com") none)
      [("x-admin-secret", .str "pw2")] c6body "T" "2" [exRow]
      = (.ok ("at://did:web:example.com/" ++ orbitNSID ++ "/2")
             (createCid (orbitRecordOf c6body "T")),
         [exRow,
          { uri := "at://did:web:example.com/" ++ orbitNSID ++ "/2",
            cid := createCid (orbitRecordOf c6body "T"), did := "did:web:example.com",
            collection := orbitNSID, rkey := "2", json := orbitRecordOf c6body "T",
            indexedAt := "T" }]) := rfl
  have hc := c6_fingerprint_deterministic.2 _ _ _ _ c6body "T" _ _ _ _ _ _ _ _ _ _ h1 h2
  rw [h1, h2]
  exact congrArg some hc

/-- Two records with the same fields and values in different insertion
order. -/
def c7r1 : Json := .obj [("a", .str "x"), ("b", .str "y")]

/-- The record `c7r1` with its two fields in the opposite order. -/
def c7r2 : Json := .obj [("b", .str "y"), ("a", .str "x")]

/-- C7 counterexample: `c7r1` and `c7r2` contain exactly the same fields
with the same values, merely in a different in-memory order, yet their
fingerprints differ — `createCid` hashes `JSON.stringify`, which serializes
in insertion order, performing no canonicalization. -/
theorem c7_counterexample :
    objGet [("a", Json.str "x"), ("b", Json.str "y")] "a"
      = objGet [("b", Json.str "y"), ("a", Json.str "x")] "a"
    ∧ objGet [("a", Json.str "x"), ("b", Json.str "y")] "b"
      = objGet [("b", Json.str "y"), ("a", Json.str "x")] "b"
    ∧ [("b", Json.str "y"), ("a", Json.str "x")]
      = [("a", Json.str "x"), ("b", Json.str "y")].reverse
    ∧ createCid c7r1 ≠ createCid c7r2 :=
  ⟨rfl, rfl, rfl, by decide⟩

/-- C7 (amended): `createCid` is determined by the record's `JSON.stringify`
serialization (insertion-ordered, no canonical field reordering): records
with equal serializations — in particular, identical field sequences — get
equal fingerprints, while reordering fields changes the serialization and,
as the counterexample shows, the fingerprint. -/
theorem c7_serialization_determines_fingerprint (x y : Json)
    (h : jsonStringify x = jsonStringify y) : createCid x = createCid y := by
  unfold createCid
  rw [h]

/-- Witness for C7 at a concrete record. -/
theorem c7_witness :
    createCid (Json.obj [("a", Json.str "x")]) = createCid (Json.obj [("a", Json.str "x")]) :=
  c7_serialization_determines_fingerprint _ _ rfl

/-! ### Claim C8 -/

/-- C8 counterexample: the mock list handler returns its two fixed orbits
even at `limit = 1`, and in the persistent variant a supplied `limit` of 0
is falsy, falls back to the default 50 and returns one record from a
one-record table rather than at most zero. -/
theorem c8_counterexample :
    (mockOrbitList 1 "localhost" "T" "r1" "r2").length = 2
    ∧ jsNumberOpt (objGet [("limit", Json.num 0)] "limit") = .int 0
    ∧ (orbitList [("limit", Json.num 0)] [exRow]).length = 1 :=
  ⟨rfl, rfl, rfl⟩

/-- C8 (amended): in the persistent variant, whenever the `Number()`
coercion of the supplied limit is an (exactly-modelled) integer `N ≥ 1` —
be the body value a JSON number, a numeric string in decimal, exponent,
hex, octal or binary notation, or a single-element array of one — the list
route returns at most `N` records; whenever that coercion is `NaN` or 0
(absent or non-numeric limit, empty string, zero numeral) the route behaves
exactly as `limit = 50`.  The mock variant returns its fixed two-element
list whatever the limit.  Truthy non-integer coercion results (fractional
values, infinities, integers beyond 2^53) are passed through to the
external database collaborator and are not constrained here. -/
theorem c8_list_limit (body : List (String × Json)) (db : Db) :
    (∀ n : Int, jsNumberOpt (objGet body "limit") = .int n → 1 ≤ n →
       ((orbitList body db).length : Int) ≤ n)
    ∧ ((jsNumberOpt (objGet body "limit") = .nan ∨
        jsNumberOpt (objGet body "limit") = .int 0) →
       orbitList body db = listWithLimit (.int 50) db)
    ∧ (∀ (lim : Int) (host now r1 r2 : String),
       (mockOrbitList lim host now r1 r2).length = 2) := by
  refine ⟨?_, ?_, fun _ _ _ _ _ => rfl⟩
  · intro n hn h1
    unfold orbitList effectiveLimit
    rw [hn]
    have hj : jsOr50 (.int n) = .int n := by
      unfold jsOr50
      simp only []
      rw [if_neg (by simpa using (by omega : n ≠ 0))]
    rw [hj]
    unfold listWithLimit
    simp only []
    have h2 : ((db.filter (fun r => r.collection == orbitNSID)).take n.toNat).length
        ≤ n.toNat := by
      rw [List.length_take]
      exact min_le_left _ _
    calc (((db.filter (fun r => r.collection == orbitNSID)).take n.toNat).length : Int)
        ≤ (n.toNat : Int) := by exact_mod_cast h2
      _ = n := Int.toNat_of_nonneg (by omega)
  · intro hd
    unfold orbitList effectiveLimit
    rcases hd with hd | hd <;> rw [hd] <;> rfl

/-- Witness for C8 at a concrete JSON-number limit, a concrete numeric
string limit, and an absent limit. -/
theorem c8_witness :
    ((orbitList [("limit", Json.num 5)] [exRow]).length : Int) ≤ 5
    ∧ ((orbitList [("limit", Json.str "1e3")] [exRow]).length : Int) ≤ 1000
    ∧ orbitList [] [exRow] = listWithLimit (.int 50) [exRow] :=
  ⟨(c8_list_limit [("limit", Json.num 5)] [exRow]).1 5 rfl (by decide),
   (c8_list_limit [("limit", Json.str "1e3")] [exRow]).1 1000 (by rfl) (by decide),
   (c8_list_limit [] [exRow]).2.1 (Or.inl rfl)⟩

/-! ### Claim C9 -/

/-- Dropping the entries whose parse payload is `none` from a filter does
not change a `filterMap` over the parse payload. -/
theorem filterMap_toOption_filter (l : List LexFile) (p : LexFile → Bool) :
    (l.filter (fun f => p f && f.2.toOption.isSome)).filterMap (fun f => f.2.toOption)
      = (l.filter p).filterMap (fun f => f.2.toOption) := by
  induction l with
  | nil => rfl
  | cons f t ih =>
    rw [List.filter_cons, List.filter_cons]
    by_cases hp : p f = true
    · rcases hc : f.2 with u | j
      · have h1 : (p f && (Except.error u : Except Unit Json).toOption.isSome) = false := by
          rw [hp]; rfl
        rw [if_neg (by rw [h1]; simp), if_pos hp, List.filterMap_cons]
        rw [hc]
        exact ih
      · have h1 : (p f && (Except.ok j : Except Unit Json).toOption.isSome) = true := by
          rw [hp]; rfl
        rw [if_pos h1, if_pos hp, List.filterMap_cons, List.filterMap_cons]
        rw [hc]
        rw [ih]
    · have hpf : p f = false := Bool.eq_false_iff.mpr hp
      have h1 : (p f && f.2.toOption.isSome) = false := by rw [hpf]; rfl
      rw [if_neg (by rw [h1]; simp), if_neg hp]
      exact ih

/-- One directory's contribution is unchanged when its malformed `.json`
files are removed. -/
theorem loadDirSkip_strip (files : List LexFile) :
    loadDirSkip (files.filter (fun f => !(strEndsWith f.1 ".json") || f.2.toOption.isSome))
      = loadDirSkip files := by
  unfold loadDirSkip
  rw [List.filter_filter]
  rw [List.filter_congr (l := files)
    (q := fun f => (strEndsWith f.1 ".json") && f.2.toOption.isSome) ?_]
  · exact filterMap_toOption_filter files (fun f => strEndsWith f.1 ".json")
  · intro f _
    cases he : strEndsWith f.1 ".json" <;> simp [he]

/-- The walk ignores malformed files directory by directory. -/
theorem loadLexStep_strip_aux (tree : List LexDir) :
    ∀ acc : List Json, (stripMalformed tree).foldl loadLexStep acc
      = tree.foldl loadLexStep acc := by
  induction tree with
  | nil => intro acc; rfl
  | cons d t ih =>
    intro acc
    rw [stripMalformed, List.map_cons, List.foldl_cons, List.foldl_cons]
    rcases d with _ | files
    · exact ih acc
    · show (stripMalformed t).foldl loadLexStep (loadLexStep acc (some (files.filter _)))
        = t.foldl loadLexStep (loadLexStep acc (some files))
      rw [show loadLexStep acc (some (files.filter
            (fun f => !(strEndsWith f.1 ".json") || f.2.toOption.isSome)))
          = acc ++ loadDirSkip (files.filter
            (fun f => !(strEndsWith f.1 ".json") || f.2.toOption.isSome)) from rfl,
          loadDirSkip_strip files]
      exact ih (acc ++ loadDirSkip files)

/-- The accumulator is preserved by the walk. -/
theorem mem_foldl_loadLexStep (tree : List LexDir) :
    ∀ (acc : List Json) (x : Json), x ∈ acc → x ∈ tree.foldl loadLexStep acc := by
  induction tree with
  | nil => exact fun _ _ h => h
  | cons d t ih =>
    intro acc x hx
    rw [List.foldl_cons]
    apply ih
    rcases d with _ | files
    · exact hx
    · exact List.mem_append_left _ hx

/-- A well-formed `.json` file's document belongs to its directory's
contribution. -/
theorem mem_loadDirSkip (files : List LexFile) (name : String) (j : Json)
    (hf : (name, Except.ok j) ∈ files) (he : strEndsWith name ".json" = true) :
    j ∈ loadDirSkip files := by
  unfold loadDirSkip
  apply List.mem_filterMap.mpr
  exact ⟨(name, Except.ok j), List.mem_filter.mpr ⟨hf, he⟩, rfl⟩

/-- A directory's contribution survives the rest of the walk. -/
theorem mem_foldl_of_mem_dir (tree : List LexDir) :
    ∀ (acc : List Json) (files : List LexFile) (j : Json),
      some files ∈ tree → j ∈ loadDirSkip files →
      j ∈ tree.foldl loadLexStep acc := by
  induction tree with
  | nil => intro _ _ _ h; cases h
  | cons d t ih =>
    intro acc files j hd hj
    rw [List.foldl_cons]
    rcases List.mem_cons.mp hd with h | h
    · rw [← h]
      exact mem_foldl_loadLexStep t _ j (List.mem_append_right _ hj)
    · exact ih _ files j h hj

/-- C9 (amended): the `loadLexicons` loader skips malformed files and
continues — its result is exactly that of the tree with the malformed
`.json` files removed — and every well-formed `.json` schema document in an
existing directory appears in the result; a single bad file never aborts
this loader.  The `loadCustomLexicons` variant lacks this property (its
single try/catch spans the whole walk), which is the counterexample. -/
theorem c9_loadLexicons_skips_malformed :
    (∀ tree : List LexDir, loadLexicons (stripMalformed tree) = loadLexicons tree)
    ∧ (∀ (tree : List LexDir) (files : List LexFile) (name : String) (j : Json),
        some files ∈ tree → (name, Except.ok j) ∈ files →
        strEndsWith name ".json" = true → j ∈ loadLexicons tree) := by
  constructor
  · intro tree
    exact loadLexStep_strip_aux tree []
  · intro tree files name j hd hf he
    exact mem_foldl_of_mem_dir tree [] files j hd (mem_loadDirSkip files name j hf he)

/-- A well-formed schema document with id `b-id`. -/
def c9good : Json := .obj [("id", .str "b-id")]

/-- A directory whose first `.json` file is malformed and whose second is
well-formed. -/
def c9tree : List LexDir := [some [("a.json", .error ()), ("b.json", .ok c9good)]]

/-- C9 counterexample: `loadCustomLexicons` aborts at the malformed
`a.json` — the registry misses the well-formed `b.json` schema it returns
when the malformed file is absent — so a single bad file does stop that
loader from returning every well-formed schema. -/
theorem c9_counterexample :
    loadCustomLexicons c9tree = []
    ∧ loadCustomLexicons [some [("b.json", .ok c9good)]] = [("b-id", c9good)] :=
  ⟨rfl, rfl⟩

/-- Witness for C9 at the concrete two-file directory. -/
theorem c9_witness :
    loadLexicons (stripMalformed c9tree) = loadLexicons c9tree
    ∧ c9good ∈ loadLexicons c9tree :=
  ⟨c9_loadLexicons_skips_malformed.1 c9tree,
   c9_loadLexicons_skips_malformed.2 c9tree
     [("a.json", .error ()), ("b.json", .ok c9good)] "b.json" c9good
     (List.mem_cons_self _ _)
     (List.mem_cons_of_mem _ (List.mem_cons_self _ _))
     rfl⟩
